import Mathlib

/-!
Verification of metapool/prep.py (metagenomics_pooling_notebook).

Shallow embedding conventions:
  * Python strings are `Str := List Char`; character classes are modelled over
    ASCII, matching the characters the source manipulates.
  * Fallible Python code returns `Py α` (`ok` / `err`), with `PyErr` recording
    which exception is raised.
  * Filesystem interaction (`glob.glob`, `os.path.exists`-style checks and
    gzip emptiness probes) is abstracted into an explicit `FS` record of
    oracles; everything after the I/O call is modelled faithfully.
  * `warnings.warn` calls are modelled by an explicit list of `Warn` values
    returned alongside the result.
-/

abbrev Str := List Char

/-- Python exceptions raised (or constructed) by prep.py, distinguished by
site so that error-identity claims can be stated. -/
inductive PyErr where
  /-- ValueError: unrecognized run identifier format (parse_illumina_run_id). -/
  | formatError (run_id : Str)
  /-- ValueError raised by datetime.strptime on a calendar-invalid date. -/
  | strptimeError
  /-- ValueError: forward and reverse sequence filenames do not match. -/
  | mismatchedFilenames (f r : Str)
  /-- ValueError: invalid pipeline name (get_run_prefix). -/
  | invalidPipeline (p : Str)
  /-- ValueError: required mapping-file columns are missing. -/
  | missingColumnsMF (cols : List Str)
  /-- ValueError: values in project_name must be appended with a Qiita Study ID. -/
  | missingQiitaId
  /-- ValueError: "A run-prefix could not be determined." -/
  | missingRunPfx
  /-- AttributeError: 'NoneType' object has no attribute 'split'. -/
  | attributeErrorNoneSplit
  /-- IndexError: string index out of range (name[0] on an empty name). -/
  | indexError
  /-- ValueError: malformed instrument model (get_machine_code). -/
  | machineCodeError (s : Str)
  /-- IndexError from .unique()[0] when no instrument record shares the prefix. -/
  | lookupIndexError
  /-- NameError: loop variable never bound (comparison loop over empty names). -/
  | nameError
  deriving DecidableEq, Repr

/-- Result of running a piece of Python code: a value or a raised exception. -/
inductive Py (α : Type) where
  | ok (a : α)
  | err (e : PyErr)
  deriving DecidableEq, Repr

/-- Sequencing of two fallible computations (exception propagation). -/
def Py.bind : Py α → (α → Py β) → Py β
  | .err e, _ => .err e
  | .ok a, f => f a

/-- Warnings emitted via warnings.warn, identified by call site. -/
inductive Warn where
  /-- well_description is not present in the sample-sheet. -/
  | noWellDescription
  /-- using description instead of well_description. -/
  | usingDescription
  /-- more than two glob matches for a sample (get_run_prefix). -/
  | ambiguousMatches (n : Nat)
  /-- more than two glob matches for a project (get_run_prefix_mf). -/
  | ambiguousMatchesMF (n : Nat)
  /-- a (project, lane) group produced no rows. -/
  | noData (project lane : Str)
  /-- sample names containing characters outside the permitted set. -/
  | invalidNames (names : List Str)
  deriving DecidableEq, Repr

/-! ## Python string primitives -/

/-- Substring test: models Python's `pat in s`. -/
def strContains : Str → Str → Bool
  | s, pat =>
    pat.isPrefixOf s ||
      match s with
      | [] => false
      | _ :: t => strContains t pat

/-- Lowercase a character; ASCII model of Python str.lower applied charwise. -/
def lowerChar (c : Char) : Char :=
  if 'A' ≤ c ∧ c ≤ 'Z' then Char.ofNat (c.toNat + 32) else c

/-- Models Python str.lower over the ASCII range. -/
def lowerStr (s : Str) : Str := s.map lowerChar

/-- Models Python str.zfill: left-pad with zeros to the given width, keeping a
leading sign character in place. -/
def zfill (width : Nat) (s : Str) : Str :=
  if width ≤ s.length then s
  else
    match s with
    | [] => List.replicate width '0'
    | c :: rest =>
      if c = '+' ∨ c = '-' then c :: (List.replicate (width - s.length) '0' ++ rest)
      else List.replicate (width - s.length) '0' ++ s

/-- Worker for replaceAll; the fuel (initially the string length, consumed one
unit per examined position) only makes the recursion structural and is never
exhausted for a non-empty pattern. -/
def replaceAllGo (pat : Str) : Nat → Str → Str
  | _, [] => []
  | 0, s => s
  | fuel + 1, c :: rest =>
    if pat.isPrefixOf (c :: rest) then replaceAllGo pat fuel ((c :: rest).drop pat.length)
    else c :: replaceAllGo pat fuel rest

/-- Models Python str.replace(pat, ''): delete every non-overlapping occurrence
of `pat`, scanning left to right (callers always pass a non-empty pattern). -/
def replaceAll (s pat : Str) : Str :=
  if pat = [] then s else replaceAllGo pat s.length s

/-- Text before the first occurrence of `pat` (all of `s` when absent); models
Python s.split(pat)[0] for a non-empty separator. -/
def splitFirst : Str → Str → Str
  | [], _ => []
  | c :: rest, pat =>
    if pat.isPrefixOf (c :: rest) then [] else c :: splitFirst rest pat

/-- Models os.path.join for two components (POSIX separator). -/
def joinPath (a b : Str) : Str := a ++ '/' :: b

/-- Models os.path.basename: the part after the last slash. -/
def basename (p : Str) : Str := (p.reverse.takeWhile (fun c => c ≠ '/')).reverse

/-- Final path component after stripping trailing slashes; models
os.path.split(os.path.normpath(p))[1] for paths without dot segments (the
dot-segment collapsing of normpath is irrelevant to every claim below). -/
def lastComponent (p : Str) : Str :=
  basename (p.reverse.dropWhile (fun c => c = '/')).reverse

/-- Lexicographic (code-point) strict order on strings, as Python compares. -/
def strLt : Str → Str → Bool
  | [], [] => false
  | [], _ :: _ => true
  | _ :: _, [] => false
  | a :: s, b :: t => if a = b then strLt s t else decide (a < b)

/-- Non-strict code-point order on strings. -/
def strLe (s t : Str) : Bool := strLt s t || s = t

/-- Python's `sorted` on a two-element list (stable ascending order). -/
def sortPair (a b : Str) : Str × Str := if strLe a b then (a, b) else (b, a)

/-- Index of the first position where the two strings differ. -/
def firstDiff : Str → Str → Option Nat
  | a :: s, b :: t => if a = b then (firstDiff s t).map (· + 1) else some 0
  | _, _ => none

/-- Python slice s[:i] for a possibly negative stop index. -/
def pySlice (s : Str) (i : Int) : Str :=
  if 0 ≤ i then s.take i.toNat else s.take (s.length - (-i).toNat)

/-- Numeric value of an ASCII digit character. -/
def digVal (c : Char) : Nat := c.toNat - 48

/-- ASCII digit character for a value below 10. -/
def digitChar (n : Nat) : Char := Char.ofNat (48 + n)

/-- Two-digit zero-padded decimal rendering (strftime %m / %d). -/
def pad2 (n : Nat) : Str := [digitChar (n / 10 % 10), digitChar (n % 10)]

/-- Four-digit zero-padded decimal rendering (strftime %Y for years ≥ 1000). -/
def pad4 (n : Nat) : Str :=
  [digitChar (n / 1000 % 10), digitChar (n / 100 % 10), digitChar (n / 10 % 10),
   digitChar (n % 10)]

/-- strftime('%Y-%m-%d') for a parsed date. -/
def formatDate (y m d : Nat) : Str := pad4 y ++ '-' :: pad2 m ++ '-' :: pad2 d

/-- Worker for reSubRuns: the flag records whether the scanner is inside a run
of rejected characters (whose replacement has already been emitted). -/
def reSubAux (ok : Char → Bool) (rep : Char) : Bool → Str → Str
  | _, [] => []
  | inRun, c :: rest =>
    if ok c then c :: reSubAux ok rep false rest
    else if inRun then reSubAux ok rep true rest
    else rep :: reSubAux ok rep true rest

/-- Models re.sub('[^X]+', rep, s): replace each maximal run of characters not
satisfying `ok` with the single character `rep`. -/
def reSubRuns (ok : Char → Bool) (rep : Char) (s : Str) : Str :=
  reSubAux ok rep false s

/-! ## Run-ID parsing (parse_illumina_run_id, prep.py lines 83-135) -/

/-- ASCII model of the regex class backslash-w used in the run-id patterns. -/
def isWordChar (c : Char) : Bool := c.isAlphanum || c = '_'

/-- ASCII model of the regex class of word characters and hyphen. -/
def isWordDash (c : Char) : Bool := isWordChar c || c = '-'

/-- Anchored match of the 6-digit run-id pattern: six digits, an underscore,
then a greedy run of word characters. Returns the six date characters (group
1) and the trailing token (group 2). -/
def match6 : Str → Option ((Char × Char × Char × Char × Char × Char) × Str)
  | a :: b :: c :: d :: e :: f :: g :: rest =>
    if a.isDigit && b.isDigit && c.isDigit && d.isDigit && e.isDigit && f.isDigit
        && (g == '_') then
      some ((a, b, c, d, e, f), rest.takeWhile isWordChar)
    else none
  | _ => none

/-- Anchored match of the 8-digit run-id pattern: eight digits, an underscore,
then a greedy run of word characters and hyphens. -/
def match8 : Str → Option ((Char × Char × Char × Char × Char × Char × Char × Char) × Str)
  | a :: b :: c :: d :: e :: f :: g :: h :: u :: rest =>
    if a.isDigit && b.isDigit && c.isDigit && d.isDigit && e.isDigit && f.isDigit
        && g.isDigit && h.isDigit && (u == '_') then
      some ((a, b, c, d, e, f, g, h), rest.takeWhile isWordDash)
    else none
  | _ => none

/-- Two-digit-year pivot used by datetime.strptime's %y directive (POSIX):
00-68 map to 2000-2068 and 69-99 to 1969-1999. -/
def pivotYear (yy : Nat) : Nat := if yy ≤ 68 then 2000 + yy else 1900 + yy

/-- Leap-year rule of the proleptic Gregorian calendar used by datetime. -/
def isLeap (y : Nat) : Bool := y % 4 == 0 && (y % 100 != 0 || y % 400 == 0)

/-- Number of days in a month as validated by datetime. -/
def daysInMonth (y m : Nat) : Nat :=
  if m = 2 then (if isLeap y then 29 else 28)
  else if m = 4 ∨ m = 6 ∨ m = 9 ∨ m = 11 then 30 else 31

/-- datetime.strptime(s, '%y%m%d').strftime('%Y-%m-%d') on six digit
characters: validate the date and render it as YYYY-MM-DD. -/
def strptime6 (a b c d e f : Char) : Py Str :=
  if 1 ≤ 10 * digVal c + digVal d ∧ 10 * digVal c + digVal d ≤ 12
      ∧ 1 ≤ 10 * digVal e + digVal f
      ∧ 10 * digVal e + digVal f
          ≤ daysInMonth (pivotYear (10 * digVal a + digVal b)) (10 * digVal c + digVal d) then
    .ok (formatDate (pivotYear (10 * digVal a + digVal b)) (10 * digVal c + digVal d)
          (10 * digVal e + digVal f))
  else .err .strptimeError

/-- datetime.strptime(s, '%Y%m%d').strftime('%Y-%m-%d') on eight digit
characters (datetime.MINYEAR is 1, so year 0 is rejected). -/
def strptime8 (a b c d e f g h : Char) : Py Str :=
  if 1 ≤ 1000 * digVal a + 100 * digVal b + 10 * digVal c + digVal d
      ∧ 1 ≤ 10 * digVal e + digVal f ∧ 10 * digVal e + digVal f ≤ 12
      ∧ 1 ≤ 10 * digVal g + digVal h
      ∧ 10 * digVal g + digVal h
          ≤ daysInMonth (1000 * digVal a + 100 * digVal b + 10 * digVal c + digVal d)
              (10 * digVal e + digVal f) then
    .ok (formatDate (1000 * digVal a + 100 * digVal b + 10 * digVal c + digVal d)
          (10 * digVal e + digVal f) (10 * digVal g + digVal h))
  else .err .strptimeError

/-- Models parse_illumina_run_id: try the 6-digit pattern, then the 8-digit
pattern; if neither matches raise the format ValueError, otherwise parse the
date with the matching strptime format and return it with the trailing token.
(The defensive group-count check in the source always passes, since both
regexes have exactly two groups.) -/
def parse_illumina_run_id (run_id : Str) : Py (Str × Str) :=
  match match6 run_id with
  | some ((a, b, c, d, e, f), tok) =>
    match strptime6 a b c d e f with
    | .err e => .err e
    | .ok date => .ok (date, tok)
  | none =>
    match match8 run_id with
    | some ((a, b, c, d, e, f, g, h), tok) =>
      match strptime8 a b c d e f g h with
      | .err e => .err e
      | .ok date => .ok (date, tok)
    | none => .err (.formatError run_id)

/-! ## remove_qiita_id (lines 148-159) and run-date extraction (lines 524-531) -/

/-- Models remove_qiita_id: strip a trailing underscore-plus-digits suffix
when the regex (.+)_(digits)$ matches, i.e. the string ends in at least one
digit, the character before the final digit run is an underscore, and at
least one character precedes that underscore. -/
def remove_qiita_id (project_name : Str) : Str :=
  let ds := project_name.reverse.takeWhile Char.isDigit
  let rest := project_name.reverse.drop ds.length
  if ds ≠ [] ∧ rest.head? = some '_' ∧ 2 ≤ rest.length then
    (rest.drop 1).reverse
  else project_name

/-- Models extract_run_date_from_run_id: slice the first underscore-separated
segment as YYMMDD and render it as 20YY/MM/DD. -/
def extract_run_date_from_run_id (run_id : Str) : Str :=
  let tmp := run_id.takeWhile (fun c => c ≠ '_')
  '2' :: '0' :: tmp.take 2 ++ '/' :: ((tmp.drop 2).take 2 ++ '/' :: (tmp.drop 4).take 2)

/-! ## Instrument lookup (lines 66-80, 294-347) -/

/-- One row of the static INSTRUMENT_LOOKUP table. -/
structure Instrument where
  code : Str
  machinePfx : Str
  vocab : Str
  center : Str
  deriving DecidableEq, Repr

/-- The static instrument registry, in the insertion order of the source. -/
def INSTRUMENT_LOOKUP : List Instrument :=
  [ { code := "FS10001773".data, machinePfx := "FS".data,
      vocab := "Illumina iSeq".data, center := "KLM".data },
    { code := "A00953".data, machinePfx := "A".data,
      vocab := "Illumina NovaSeq 6000".data, center := "IGM".data },
    { code := "A00169".data, machinePfx := "A".data,
      vocab := "Illumina NovaSeq 6000".data, center := "LJI".data },
    { code := "M05314".data, machinePfx := "M".data,
      vocab := "Illumina MiSeq".data, center := "KLM".data },
    { code := "K00180".data, machinePfx := "K".data,
      vocab := "Illumina HiSeq 4000".data, center := "IGM".data },
    { code := "D00611".data, machinePfx := "D".data,
      vocab := "Illumina HiSeq 2500".data, center := "IGM".data },
    { code := "MN01225".data, machinePfx := "MN".data,
      vocab := "Illumina MiniSeq".data, center := "CMI".data } ]

/-- Models get_machine_code: the greedy 1-2 letter alphabetic prefix of the
instrument model, or a ValueError when the model does not start with a letter. -/
def get_machine_code (im : Str) : Py Str :=
  match im with
  | [] => .err (.machineCodeError im)
  | [c] => if c.isAlpha then .ok [c] else .err (.machineCodeError im)
  | c :: d :: _ =>
    if c.isAlpha then (if d.isAlpha then .ok [c, d] else .ok [c])
    else .err (.machineCodeError im)

/-- Models get_model_and_center: exact lookup of the pre-underscore model
code; otherwise fall back to the first record whose machine prefix matches,
with run center defaulting to UCSDMI. (In the source the `prefix not in ...`
ValueError is constructed but never raised, and the membership test inspects
the Series index; both are behavioural no-ops. When no record shares the
prefix, `.unique()[0]` raises an IndexError, modelled as lookupIndexError.) -/
def get_model_and_center (icode : Str) : Py (Str × Str) :=
  let model := icode.takeWhile (fun c => c ≠ '_')
  match INSTRUMENT_LOOKUP.find? (fun i => i.code == model) with
  | some i => .ok (i.vocab, i.center)
  | none =>
    match get_machine_code model with
    | .err e => .err e
    | .ok mpfx =>
      match INSTRUMENT_LOOKUP.find? (fun i => i.machinePfx == mpfx) with
      | some i => .ok (i.vocab, "UCSDMI".data)
      | none => .err .lookupIndexError

/-! ## Study-specific transform (agp_transform, lines 350-381) -/

/-- The literal 'blank' searched for (case-insensitively) by zero_fill. -/
def blankStr : Str := "blank".data

/-- The AGP study identifier constant. -/
def agpStudyId : Str := "10317".data

/-- Models the inner zero_fill of agp_transform: names not containing 'blank'
(case-insensitive) whose first character is a digit are zero-filled to 9
characters; indexing name[0] on an empty name raises IndexError. -/
def zero_fill (name : Str) : Py Str :=
  if strContains (lowerStr name) blankStr then .ok name
  else
    match name with
    | [] => .err .indexError
    | c :: _ => if c.isDigit then .ok (zfill 9 name) else .ok name

/-- A row of a preparation frame as agp_transform sees it: the four columns
the transform touches, plus the remaining columns of the schema (`rest`). -/
structure AgpRow (α : Type) where
  sample_name : Str
  center_name : Str
  library_construction_protocol : Str
  experiment_design_description : Str
  rest : α
  deriving DecidableEq, Repr

/-- Effectful map over a list, propagating the first raised exception. -/
def pyMapM (f : α → Py β) : List α → Py (List β)
  | [] => .ok []
  | a :: l =>
    match f a with
    | .err e => .err e
    | .ok b =>
      match pyMapM f l with
      | .err e => .err e
      | .ok bs => .ok (b :: bs)

/-- Models agp_transform: when the study id is 10317, zero-fill every sample
name and overwrite center_name, library_construction_protocol and
experiment_design_description with the AGP constants; otherwise return the
frame unchanged. -/
def agp_transform (frame : List (AgpRow α)) (study_id : Str) : Py (List (AgpRow α)) :=
  if study_id = agpStudyId then
    pyMapM (fun r =>
      match zero_fill r.sample_name with
      | .err e => .err e
      | .ok n =>
        .ok { r with
              sample_name := n,
              center_name := "UCSDMI".data,
              library_construction_protocol := "Knight Lab KHP".data,
              experiment_design_description :=
                "samples of skin, saliva and feces and other samples from the AGP".data })
      frame
  else .ok frame

/-! ## Sample-name validation and scrubbing (lines 384-396, 562-564, 808-821) -/

/-- Characters allowed by _check_invalid_names (ascii_letters + digits + '.'). -/
def validNameChar (c : Char) : Bool := c.isAlpha || c.isDigit || c = '.'

/-- True when a name contains a character outside the permitted set. -/
def hasInvalidChars (name : Str) : Bool := name.any (fun c => !validNameChar c)

/-- Models _check_invalid_names: warn (once, listing the offenders) when any
sample name contains a disallowed character. -/
def checkInvalidNames (names : List Str) : List Warn :=
  let invalid := names.filter hasInvalidChars
  if invalid = [] then [] else [Warn.invalidNames invalid]

/-- The character class kept by qiita_scrub_name. -/
def qiitaOkChar (c : Char) : Bool :=
  c.isDigit || ('a' ≤ c ∧ c ≤ 'z') || ('A' ≤ c ∧ c ≤ 'Z') || c = '-' || c = '.'

/-- Models qiita_scrub_name: re.sub of each maximal run of characters outside
[0-9a-zA-Z-.] by a single '.'. -/
def qiita_scrub_name (name : Str) : Str := reSubRuns qiitaOkChar '.' name

/-- The character class kept by the inline Sample_ID scrub of
preparations_for_run_mapping_file (keeps '-' and '_'). -/
def bclOkChar (c : Char) : Bool :=
  c.isDigit || ('a' ≤ c ∧ c ≤ 'z') || ('A' ≤ c ∧ c ≤ 'Z') || c = '-' || c = '_'

/-- Models re.sub('[^0-9a-zA-Z-_]+', '_', name) used to synthesize Sample_ID. -/
def bclScrubName (name : Str) : Str := reSubRuns bclOkChar '_' name

/-! ## File-pair locator (get_run_prefix lines 162-247, get_run_prefix_mf lines 250-282) -/

/-- Filesystem oracles: directory probes, glob expansion, and the non-empty
gzip test (is_nonempty_gz_file, which absorbs decompression failures). -/
structure FS where
  existsAndHasFiles : Str → Bool
  glob : Str → List Str
  nonemptyGz : Str → Bool

/-- Models the pipeline-dependent choice of search directory in
get_run_prefix, or the invalid-pipeline ValueError. -/
def chooseDir (fs : FS) (run_path project pipeline : Str) : Py Str :=
  let base := joinPath run_path project
  if pipeline = "atropos-and-bowtie2".data then
    let qc := joinPath base "atropos_qc".data
    let hf := joinPath base "filtered_sequences".data
    .ok (if fs.existsAndHasFiles qc then (if fs.existsAndHasFiles hf then hf else qc) else base)
  else if pipeline = "fastp-and-minimap2".data then
    let qc := joinPath base "trimmed_sequences".data
    let hf := joinPath base "filtered_sequences".data
    .ok (if fs.existsAndHasFiles qc && fs.existsAndHasFiles hf then hf
         else if fs.existsAndHasFiles qc then qc
         else if fs.existsAndHasFiles hf then hf else base)
  else .err (.invalidPipeline pipeline)

/-- The glob pattern '{sample_id}_S*_L*{lane}_R*.fastq.gz'. -/
def searchMe (sample_id lane : Str) : Str :=
  sample_id ++ "_S*_L*".data ++ lane ++ "_R*.fastq.gz".data

/-- Shared two-file logic of both locators: sort the pair, require both files
non-empty, require equal-length basenames (else the mismatched-filenames
ValueError), and cut the first basename two characters before the first
differing position. A loop that never breaks leaves the Python loop variable
at len-1 (or unbound, NameError, for empty basenames). -/
def pairPfx (nonempty : Str → Bool) (a b : Str) : Py (Option Str) :=
  let fwd := (sortPair a b).1
  let rev := (sortPair a b).2
  if nonempty fwd && nonempty rev then
    let f := basename fwd
    let r := basename rev
    if f.length ≠ r.length then .err (.mismatchedFilenames f r)
    else
      match firstDiff f r with
      | some i => .ok (some (pySlice f ((i : Int) - 2)))
      | none =>
        if f = [] then .err .nameError else .ok (some (f.take (f.length - 1)))
  else .ok none

/-- Models get_run_prefix: choose the search directory, glob for the sample's
files, and derive the shared prefix iff exactly two non-empty files match;
one or zero matches give None, more than two give None with a warning. -/
def get_run_pfx (fs : FS) (run_path project sample_id lane pipeline : Str) :
    Py (Option Str) × List Warn :=
  match chooseDir fs run_path project pipeline with
  | .err e => (.err e, [])
  | .ok path =>
    match fs.glob (joinPath path (searchMe sample_id lane)) with
    | [a, b] => (pairPfx fs.nonemptyGz a b, [])
    | results =>
      if 2 < results.length then (.ok none, [Warn.ambiguousMatches results.length])
      else (.ok none, [])

/-- Models get_run_prefix_mf: same pair logic on the fixed amplicon pattern. -/
def get_run_pfx_mf (fs : FS) (run_path project : Str) : Py (Option Str) × List Warn :=
  match fs.glob (joinPath (joinPath (joinPath run_path project) "amplicon".data)
      "*_SMPL1_S*R?_*.fastq.gz".data) with
  | [a, b] => (pairPfx fs.nonemptyGz a b, [])
  | results =>
    if 2 < results.length then (.ok none, [Warn.ambiguousMatchesMF results.length])
    else (.ok none, [])

/-! ## Run-sheet preparation assembler (preparations_for_run, lines 399-521) -/

/-- A sample-sheet row with every column the assembler reads. The sheet-level
flags below record whether the optional well_description / description
columns are present; required columns are structural (the assembler is only
modelled past its required-column check, which these fields always satisfy). -/
structure SRow where
  sample_name : Str
  sample_plate : Str
  sample_well : Str
  i7_index_id : Str
  index : Str
  i5_index_id : Str
  index2 : Str
  sample_project : Str
  lane : Str
  experiment_design_description : Str
  library_construction_protocol : Str
  well_description : Str
  description : Str
  deriving DecidableEq, Repr

/-- A loaded sample sheet: presence flags for the two optional description
columns, and rows keyed by the frame index (the Sample_ID used for files). -/
structure Sheet where
  hasWellDesc : Bool
  hasDesc : Bool
  rows : List (Str × SRow)
  deriving DecidableEq, Repr

/-- The 17 preparation columns not touched by agp_transform (run-sheet
schema); together with the four AgpRow fields these are PREP_COLUMNS. -/
structure PrepRest where
  well_description : Str
  platform : Str
  run_center : Str
  run_date : Str
  run_pfx : Str
  sequencing_meth : Str
  center_project_name : Str
  instrument_model : Str
  runid : Str
  lane : Str
  sample_project : Str
  sample_plate : Str
  sample_well : Str
  i7_index_id : Str
  index : Str
  i5_index_id : Str
  index2 : Str
  deriving DecidableEq, Repr

/-- A row of a run-sheet preparation frame. -/
abbrev PrepRow := AgpRow PrepRest

/-- Output dictionary entry: key (run id, project, lane) and its frame. -/
abbrev PrepEntry := (Str × Str × Str) × List PrepRow

/-- Models pandas groupby over an explicit key: one group per distinct key,
containing exactly the rows with that key. (pandas emits groups in sorted key
order; since the output is a dictionary, only the key-to-group association is
observable and the encounter order used here is equivalent.) -/
def groupPairs [DecidableEq κ] (key : α → κ) (xs : List α) : List (κ × List α) :=
  ((xs.map key).dedup).map (fun k => (k, xs.filter (fun x => key x == k)))

/-- Effectful map that also accumulates the warnings of each step. -/
def accumMapM (g : α → Py (β × List Warn)) : List α → Py (List β × List Warn)
  | [] => .ok ([], [])
  | a :: l =>
    match g a with
    | .err e => .err e
    | .ok (b, w) =>
      match accumMapM g l with
      | .err e => .err e
      | .ok (bs, ws) => .ok (b :: bs, w ++ ws)

/-- Models the description-column normalization (lines 442-450): when
well_description is absent warn, and when a description column exists copy it
into well_description and drop the original from the caller's sheet. -/
def adjustDescription (sheet : Sheet) : Sheet × List Warn :=
  if sheet.hasWellDesc then (sheet, [])
  else if sheet.hasDesc then
    ({ hasWellDesc := true, hasDesc := false,
       rows := sheet.rows.map (fun p =>
         (p.1, { p.2 with well_description := p.2.description })) },
     [Warn.noWellDescription, Warn.usingDescription])
  else (sheet, [Warn.noWellDescription])

/-- Builds one preparation row (lines 474-500); every PREP_COLUMNS field is
assigned, so the initial empty-string dictionary is not observable. -/
def buildRow (run_id run_date imodel rcenter project pname lane pfx : Str)
    (s : SRow) : PrepRow :=
  { sample_name := s.sample_name,
    experiment_design_description := s.experiment_design_description,
    library_construction_protocol := s.library_construction_protocol,
    center_name := "UCSD".data,
    rest :=
      { platform := "Illumina".data,
        run_center := rcenter,
        run_date := run_date,
        run_pfx := pfx,
        sequencing_meth := "sequencing by synthesis".data,
        center_project_name := pname,
        instrument_model := imodel,
        runid := run_id,
        sample_plate := s.sample_plate,
        sample_well := s.sample_well,
        i7_index_id := s.i7_index_id,
        index := s.index,
        i5_index_id := s.i5_index_id,
        index2 := s.index2,
        lane := lane,
        sample_project := project,
        well_description :=
          s.sample_plate ++ '.' :: s.sample_name ++ '.' :: s.sample_well } }

/-- The per-sample loop of one lane group: locate each sample's file pair,
skip samples with no prefix, build rows for the rest. -/
def collectRows (fs : FS) (run_path pipeline run_id run_date imodel rcenter
    project pname lane : Str) : List (Str × SRow) → Py (List PrepRow × List Warn)
  | [] => .ok ([], [])
  | (sid, s) :: rest =>
    let gr := get_run_pfx fs run_path project sid lane pipeline
    match gr.1 with
    | .err e => .err e
    | .ok none =>
      match collectRows fs run_path pipeline run_id run_date imodel rcenter
          project pname lane rest with
      | .err e => .err e
      | .ok (rows, w) => .ok (rows, gr.2 ++ w)
    | .ok (some pfx) =>
      match collectRows fs run_path pipeline run_id run_date imodel rcenter
          project pname lane rest with
      | .err e => .err e
      | .ok (rows, w) =>
        .ok (buildRow run_id run_date imodel rcenter project pname lane pfx s :: rows,
             gr.2 ++ w)

/-- One (project, lane) group: collect rows, warn when the group is empty,
apply the study transform, validate names, and key the frame. -/
def prepLane (fs : FS) (run_path pipeline run_id run_date imodel rcenter
    project pname qid lane : Str) (laneRows : List (Str × SRow)) :
    Py (PrepEntry × List Warn) :=
  match collectRows fs run_path pipeline run_id run_date imodel rcenter
      project pname lane laneRows with
  | .err e => .err e
  | .ok (data, w1) =>
    let w2 := if data = [] then [Warn.noData project lane] else []
    match agp_transform data qid with
    | .err e => .err e
    | .ok prep =>
      .ok (((run_id, project, lane), prep),
           w1 ++ w2 ++ checkInvalidNames (prep.map AgpRow.sample_name))

/-- The Qiita study id of a project name: the project name with its qiita-less
form plus underscore removed, or the QIITA-ID placeholder when the project
name carries no id suffix (lines 453-458). -/
def qidOf (project : Str) : Str :=
  let q := replaceAll project (remove_qiita_id project ++ ['_'])
  if q = project then "QIITA-ID".data else q

/-- One project group: derive the project name and Qiita id, then process
each lane group. -/
def prepProject (fs : FS) (run_path pipeline run_id run_date imodel rcenter
    project : Str) (prows : List (Str × SRow)) : Py (List PrepEntry × List Warn) :=
  accumMapM
    (fun lg => prepLane fs run_path pipeline run_id run_date imodel rcenter
        project (remove_qiita_id project) (qidOf project) lg.1 lg.2)
    (groupPairs (fun p => (p.2 : SRow).lane) prows)

/-- All project groups of the (already description-normalized) sheet. -/
def prepProjects (fs : FS) (run_path pipeline run_id run_date imodel rcenter : Str)
    (sheet₂ : Sheet) : Py (List PrepEntry × List Warn) :=
  match accumMapM
      (fun pg => prepProject fs run_path pipeline run_id run_date imodel rcenter
          pg.1 pg.2)
      (groupPairs (fun p => (p.2 : SRow).sample_project) sheet₂.rows) with
  | .err e => .err e
  | .ok (ess, w) => .ok (ess.flatten, w)

/-- Models preparations_for_run. The first component of the result is the
caller's sheet after the call (the source mutates it in place); the second is
the output dictionary with the warnings emitted, or the raised exception. -/
def preparations_for_run (fs : FS) (run_path : Str) (sheet : Sheet)
    (pipeline : Str) : Sheet × Py (List PrepEntry × List Warn) :=
  let run_id := lastComponent run_path
  match parse_illumina_run_id run_id with
  | .err e => (sheet, .err e)
  | .ok (run_date, icode) =>
    match get_model_and_center icode with
    | .err e => (sheet, .err e)
    | .ok (imodel, rcenter) =>
      let sw := adjustDescription sheet
      match prepProjects fs run_path pipeline run_id run_date imodel rcenter sw.1 with
      | .err e => (sw.1, .err e)
      | .ok (tables, w) => (sw.1, .ok (tables, sw.2 ++ w))

/-! ## Mapping-file preparation assembler (preparations_for_run_mapping_file,
lines 534-662) -/

/-- A mapping-file row: the 34 required columns, plus the lane and Sample_ID
columns the assembler itself adds at entry (meaningful once set). -/
structure MFRow where
  sample_name : Str := []
  barcode : Str := []
  primer : Str := []
  primer_plate : Str := []
  well_id : Str := []
  plating : Str := []
  extractionkit_lot : Str := []
  extraction_robot : Str := []
  tm1000_8_tool : Str := []
  primer_date : Str := []
  mastermix_lot : Str := []
  water_lot : Str := []
  processing_robot : Str := []
  tm300_8_tool : Str := []
  tm50_8_tool : Str := []
  sample_plate : Str := []
  project_name : Str := []
  orig_name : Str := []
  well_description : Str := []
  experiment_design_description : Str := []
  library_construction_protocol : Str := []
  linker : Str := []
  platform : Str := []
  run_center : Str := []
  run_date : Str := []
  run_pfx : Str := []
  pcr_primers : Str := []
  sequencing_meth : Str := []
  target_gene : Str := []
  target_subfragment : Str := []
  center_name : Str := []
  center_project_name : Str := []
  instrument_model : Str := []
  runid : Str := []
  lane : Str := []
  sampleID : Str := []
  deriving DecidableEq, Repr

/-- A loaded mapping file: its column names and its rows (with a pandas
default integer index, so the synthesized lane Series aligns row-for-row). -/
structure MFSheet where
  columns : List Str
  rows : List MFRow
  deriving DecidableEq, Repr

/-- REQUIRED_MF_COLUMNS of the source, as a list. -/
def REQUIRED_MF_COLUMNS : List Str :=
  ["sample_name".data, "barcode".data, "primer".data, "primer_plate".data,
   "well_id".data, "plating".data, "extractionkit_lot".data,
   "extraction_robot".data, "tm1000_8_tool".data, "primer_date".data,
   "mastermix_lot".data, "water_lot".data, "processing_robot".data,
   "tm300_8_tool".data, "tm50_8_tool".data, "sample_plate".data,
   "project_name".data, "orig_name".data, "well_description".data,
   "experiment_design_description".data, "library_construction_protocol".data,
   "linker".data, "platform".data, "run_center".data, "run_date".data,
   "run_prefix".data, "pcr_primers".data, "sequencing_meth".data,
   "target_gene".data, "target_subfragment".data, "center_name".data,
   "center_project_name".data, "instrument_model".data, "runid".data]

/-- The 30 mapping-file preparation columns not touched by agp_transform;
with the four AgpRow fields these are PREP_MF_COLUMNS. -/
structure MFRest where
  barcode : Str
  center_project_name : Str
  instrument_model : Str
  lane : Str
  platform : Str
  run_center : Str
  run_date : Str
  run_pfx : Str
  runid : Str
  sample_plate : Str
  sequencing_meth : Str
  linker : Str
  primer : Str
  primer_plate : Str
  well_id : Str
  plating : Str
  extractionkit_lot : Str
  extraction_robot : Str
  tm1000_8_tool : Str
  primer_date : Str
  mastermix_lot : Str
  water_lot : Str
  processing_robot : Str
  tm300_8_tool : Str
  tm50_8_tool : Str
  project_name : Str
  orig_name : Str
  well_description : Str
  pcr_primers : Str
  target_gene : Str
  target_subfragment : Str
  deriving DecidableEq, Repr

/-- A row of a mapping-file preparation frame. -/
abbrev MFPrepRow := AgpRow MFRest

/-- Output dictionary entry of the mapping-file assembler. -/
abbrev MFEntry := (Str × Str × Str) × List MFPrepRow

/-- Appends a column name unless it is already present (pandas column
assignment only appends new labels). -/
def addCol (cols : List Str) (c : Str) : List Str :=
  if c ∈ cols then cols else cols ++ [c]

/-- The in-place mutations performed at the top of
preparations_for_run_mapping_file (lines 551-564): lowercase every column
label, then add the constant lane column and the scrubbed Sample_ID column. -/
def mutateMF (mf : MFSheet) : MFSheet :=
  { columns := addCol (addCol (mf.columns.map lowerStr) "lane".data) "Sample_ID".data,
    rows := mf.rows.map (fun r =>
      { r with lane := "1".data, sampleID := bclScrubName r.sample_name }) }

/-- Builds one mapping-file preparation row (lines 605-644); every
PREP_MF_COLUMNS field is assigned. -/
def buildMFRow (run_id pfx lane : Str) (s : MFRow) : MFPrepRow :=
  { sample_name := s.sample_name,
    experiment_design_description := s.experiment_design_description,
    library_construction_protocol := s.library_construction_protocol,
    center_name := s.center_name,
    rest :=
      { platform := s.platform,
        run_center := s.run_center,
        run_date := extract_run_date_from_run_id run_id,
        run_pfx := pfx,
        sequencing_meth := s.sequencing_meth,
        center_project_name := s.center_project_name,
        instrument_model := s.instrument_model,
        runid := run_id,
        sample_plate := s.sample_plate,
        lane := lane,
        barcode := s.barcode,
        linker := s.linker,
        primer := s.primer,
        primer_plate := s.primer_plate,
        well_id := s.well_id,
        plating := s.plating,
        extractionkit_lot := s.extractionkit_lot,
        extraction_robot := s.extraction_robot,
        tm1000_8_tool := s.tm1000_8_tool,
        primer_date := s.primer_date,
        mastermix_lot := s.mastermix_lot,
        water_lot := s.water_lot,
        processing_robot := s.processing_robot,
        tm300_8_tool := s.tm300_8_tool,
        tm50_8_tool := s.tm50_8_tool,
        project_name := s.project_name,
        orig_name := s.orig_name,
        well_description := s.well_description,
        pcr_primers := s.pcr_primers,
        target_gene := s.target_gene,
        target_subfragment := s.target_subfragment } }

/-- One (project, lane) group of the mapping-file assembler: every sample of
the group becomes a row (no per-sample file resolution in this variant). -/
def prepMFLane (run_id pfx project qid lane : Str) (laneRows : List MFRow) :
    Py (MFEntry × List Warn) :=
  let data := laneRows.map (buildMFRow run_id pfx lane)
  let w2 := if data = [] then [Warn.noData project lane] else []
  match agp_transform data qid with
  | .err e => .err e
  | .ok prep =>
    .ok (((run_id, project, lane), prep),
         w2 ++ checkInvalidNames (prep.map AgpRow.sample_name))

/-- One project group: require a Qiita-id suffix on the project name, then
resolve the run-prefix once for the project. The source computes
run_prefix.split('_SMPL1')[0] BEFORE its None check, so a missing prefix
raises AttributeError on the split and the guarded
"A run-prefix could not be determined." ValueError is unreachable. -/
def prepMFProject (fs : FS) (run_path project : Str) (prows : List MFRow) :
    Py (List MFEntry × List Warn) :=
  let pname := remove_qiita_id project
  let qid0 := replaceAll project (pname ++ ['_'])
  if qid0 = project then .err .missingQiitaId
  else
    let gr := get_run_pfx_mf fs run_path project
    match gr.1 with
    | .err e => .err e
    | .ok none => .err .attributeErrorNoneSplit
    | .ok (some pfx) =>
      let run_id := splitFirst pfx "_SMPL1".data
      match accumMapM (fun lg => prepMFLane run_id pfx project qid0 lg.1 lg.2)
          (groupPairs MFRow.lane prows) with
      | .err e => .err e
      | .ok (es, w) => .ok (es, gr.2 ++ w)

/-- Models preparations_for_run_mapping_file. The first component is the
caller's mapping file after the call (mutated unconditionally at entry); the
second is the output dictionary with warnings, or the raised exception. -/
def preparations_for_run_mapping_file (fs : FS) (run_path : Str) (mf : MFSheet) :
    MFSheet × Py (List MFEntry × List Warn) :=
  let mf₂ := mutateMF mf
  let notPresent := REQUIRED_MF_COLUMNS.filter (fun c => !(c ∈ mf₂.columns : Bool))
  (mf₂,
   if notPresent ≠ [] then .err (.missingColumnsMF notPresent)
   else
     match accumMapM (fun pg => prepMFProject fs run_path pg.1 pg.2)
         (groupPairs MFRow.project_name mf₂.rows) with
     | .err e => .err e
     | .ok (ess, w) => .ok (ess.flatten, w))

/-! ## Helper lemmas -/

/-- Every character of a reSubAux output satisfies the kept class, provided
the replacement character does. -/
theorem reSubAux_all {ok : Char → Bool} {rep : Char} (hrep : ok rep = true) :
    ∀ (b : Bool) (s : Str), (reSubAux ok rep b s).all ok = true := by
  intro b s
  induction s generalizing b with
  | nil => simp [reSubAux]
  | cons c rest ih =>
    by_cases hc : ok c
    · simp [reSubAux, hc, ih]
    · cases b
      · simp [reSubAux, hc, hrep, ih]
      · simp [reSubAux, hc, ih]

/-! ## Claims about parse_illumina_run_id (C2, C7) -/

/-- Claim C7: a run identifier matching neither the 6-digit-date pattern nor
the 8-digit-date pattern makes parse_illumina_run_id fail with the
FormatError describing both accepted formats; no result is returned. -/
theorem c7_unmatched_format_error (s : Str)
    (h6 : match6 s = none) (h8 : match8 s = none) :
    parse_illumina_run_id s = Py.err (PyErr.formatError s) := by
  unfold parse_illumina_run_id
  rw [h6, h8]

/-- Witness for C7 at the concrete run id "notarun". -/
theorem c7_witness :
    parse_illumina_run_id ("notarun".data) = Py.err (PyErr.formatError ("notarun".data)) :=
  c7_unmatched_format_error ("notarun".data) rfl rfl

/-- Counterexample to claim C2 as stated: "690101_X" matches the 6-digit
pattern and 690101 is calendar-valid, but the parser returns 1969-01-01 (the
POSIX %y pivot maps 69-99 to 19YY), not the claimed 20YY reading 2069-01-01. -/
theorem c2_pivot_counterexample :
    parse_illumina_run_id ("690101_X".data) = Py.ok ("1969-01-01".data, "X".data)
    ∧ parse_illumina_run_id ("690101_X".data) ≠ Py.ok ("2069-01-01".data, "X".data) := by
  constructor
  · decide
  · decide

/-- Claim C2 (amended): for a run id matching the 6-digit pattern whose date
part is calendar-valid under the strptime %y pivot (20YY for YY ≤ 68, 19YY
for YY ≥ 69), the parser returns the date formatted YYYY-MM-DD under that
pivot interpretation, and the token following the date unmodified. -/
theorem c2_parse_six_digit_amended (s : Str) (a b c d e f : Char) (tok : Str)
    (h : match6 s = some ((a, b, c, d, e, f), tok))
    (hm1 : 1 ≤ 10 * digVal c + digVal d) (hm2 : 10 * digVal c + digVal d ≤ 12)
    (hd1 : 1 ≤ 10 * digVal e + digVal f)
    (hd2 : 10 * digVal e + digVal f
        ≤ daysInMonth (pivotYear (10 * digVal a + digVal b)) (10 * digVal c + digVal d)) :
    parse_illumina_run_id s
      = Py.ok (formatDate (pivotYear (10 * digVal a + digVal b))
          (10 * digVal c + digVal d) (10 * digVal e + digVal f), tok) := by
  have hs : strptime6 a b c d e f
      = Py.ok (formatDate (pivotYear (10 * digVal a + digVal b))
          (10 * digVal c + digVal d) (10 * digVal e + digVal f)) := by
    unfold strptime6
    rw [if_pos ⟨hm1, hm2, hd1, hd2⟩]
  simp only [parse_illumina_run_id, h, hs]

/-- Witness for the amended C2 at the concrete run id "220303_A00953". -/
theorem c2_parse_six_digit_witness :
    parse_illumina_run_id ("220303_A00953".data)
      = Py.ok ("2022-03-03".data, "A00953".data) := by
  have h := c2_parse_six_digit_amended ("220303_A00953".data) '2' '2' '0' '3' '0' '3'
      ("A00953".data) rfl (by decide) (by decide) (by decide) (by decide)
  rw [h]
  decide

/-! ## Claim about qiita_scrub_name (C8) -/

/-- Claim C8: qiita_scrub_name returns only characters from [0-9a-zA-Z-.],
replacing each maximal run of other characters by a single '.', and in
particular maps "sample 1!" to "sample.1.". -/
theorem c8_scrub_charset :
    (∀ s : Str, (qiita_scrub_name s).all qiitaOkChar = true)
    ∧ qiita_scrub_name ("sample 1!".data) = "sample.1.".data := by
  refine ⟨fun s => ?_, by decide⟩
  exact reSubAux_all (by decide) false s

/-- Instantiation of C8 at a concrete input. -/
theorem c8_witness :
    (qiita_scrub_name ("ab cd".data)).all qiitaOkChar = true :=
  c8_scrub_charset.1 ("ab cd".data)

/-! ## Claims about get_run_pfx (C4, C5) -/

/-- Characterization of get_run_pfx once the search directory is fixed. -/
theorem get_run_pfx_eq (fs : FS) (run_path project sample_id lane pipeline path : Str)
    (hc : chooseDir fs run_path project pipeline = Py.ok path) :
    get_run_pfx fs run_path project sample_id lane pipeline =
      match fs.glob (joinPath path (searchMe sample_id lane)) with
      | [a, b] => (pairPfx fs.nonemptyGz a b, [])
      | results =>
        if 2 < results.length then (.ok none, [Warn.ambiguousMatches results.length])
        else (.ok none, []) := by
  simp only [get_run_pfx, hc]

/-- The pair logic returns None as soon as either file is empty. -/
theorem pairPfx_none {ne : Str → Bool} {a b : Str}
    (h : ne a = false ∨ ne b = false) : pairPfx ne a b = Py.ok none := by
  simp only [pairPfx, sortPair]
  split
  · rcases h with h | h <;> simp [h]
  · rcases h with h | h <;> simp [h]

/-- Slicing with a nonnegative stop is List.take. -/
theorem pySlice_nonneg (s : Str) (i : Nat) (h : 2 ≤ i) :
    pySlice s ((i : Int) - 2) = s.take (i - 2) := by
  unfold pySlice
  rw [if_pos (by omega)]
  congr 1
  omega

/-- Claim C4: with exactly two matches, both non-empty, the locator sorts the
pair; equal-length basenames give the first basename cut two characters
before the first differing position (the longest common prefix trimmed by 2),
while basenames of different lengths raise the mismatched-filenames
ValueError. -/
theorem c4_pair_pfx_trim (fs : FS)
    (run_path project sample_id lane pipeline path a b : Str)
    (hc : chooseDir fs run_path project pipeline = Py.ok path)
    (hg : fs.glob (joinPath path (searchMe sample_id lane)) = [a, b])
    (hna : fs.nonemptyGz a = true) (hnb : fs.nonemptyGz b = true) :
    ((basename (sortPair a b).1).length = (basename (sortPair a b).2).length →
      ∀ i, firstDiff (basename (sortPair a b).1) (basename (sortPair a b).2) = some i →
        2 ≤ i →
        get_run_pfx fs run_path project sample_id lane pipeline
          = (Py.ok (some ((basename (sortPair a b).1).take (i - 2))), []))
    ∧ ((basename (sortPair a b).1).length ≠ (basename (sortPair a b).2).length →
        get_run_pfx fs run_path project sample_id lane pipeline
          = (Py.err (PyErr.mismatchedFilenames (basename (sortPair a b).1)
              (basename (sortPair a b).2)), [])) := by
  rw [get_run_pfx_eq fs run_path project sample_id lane pipeline path hc, hg]
  have hne : (fs.nonemptyGz (sortPair a b).1 && fs.nonemptyGz (sortPair a b).2) = true := by
    unfold sortPair
    split <;> simp [hna, hnb]
  constructor
  · intro hlen i hi h2
    simp only [pairPfx, hne, if_true, hi, pySlice_nonneg _ i h2]
    rw [if_neg (not_not_intro hlen)]
  · intro hlen
    simp only [pairPfx, hne, if_true, if_pos hlen]

/-- Witness for C4 at the two filenames of the specification example. -/
theorem c4_witness :
    get_run_pfx
      { existsAndHasFiles := fun _ => false,
        glob := fun _ => ["p/SampleA_S1_L001_R1_001.fastq.gz".data,
                          "p/SampleA_S1_L001_R2_001.fastq.gz".data],
        nonemptyGz := fun _ => true }
      ("r".data) ("P".data) ("SampleA".data) ("1".data) ("fastp-and-minimap2".data)
      = (Py.ok (some ("SampleA_S1_L001".data)), []) := by
  have h := (c4_pair_pfx_trim
      { existsAndHasFiles := fun _ => false,
        glob := fun _ => ["p/SampleA_S1_L001_R1_001.fastq.gz".data,
                          "p/SampleA_S1_L001_R2_001.fastq.gz".data],
        nonemptyGz := fun _ => true }
      ("r".data) ("P".data) ("SampleA".data) ("1".data) ("fastp-and-minimap2".data)
      (joinPath ("r".data) ("P".data))
      ("p/SampleA_S1_L001_R1_001.fastq.gz".data)
      ("p/SampleA_S1_L001_R2_001.fastq.gz".data)
      rfl rfl rfl rfl).1 (by decide) 17 (by decide) (by decide)
  rw [h]
  decide

/-- Claim C5: the locator returns None (raising nothing) on zero matches, one
match, more than two matches (with a warning), and on exactly two matches
when either file decompresses to zero bytes. -/
theorem c5_no_pfx_cases (fs : FS)
    (run_path project sample_id lane pipeline path : Str)
    (hc : chooseDir fs run_path project pipeline = Py.ok path) :
    ((fs.glob (joinPath path (searchMe sample_id lane))).length = 0
        ∨ (fs.glob (joinPath path (searchMe sample_id lane))).length = 1 →
      get_run_pfx fs run_path project sample_id lane pipeline = (Py.ok none, []))
    ∧ (2 < (fs.glob (joinPath path (searchMe sample_id lane))).length →
      get_run_pfx fs run_path project sample_id lane pipeline
        = (Py.ok none, [Warn.ambiguousMatches
            (fs.glob (joinPath path (searchMe sample_id lane))).length]))
    ∧ (∀ a b, fs.glob (joinPath path (searchMe sample_id lane)) = [a, b] →
      fs.nonemptyGz a = false ∨ fs.nonemptyGz b = false →
      get_run_pfx fs run_path project sample_id lane pipeline = (Py.ok none, [])) := by
  rw [get_run_pfx_eq fs run_path project sample_id lane pipeline path hc]
  refine ⟨?_, ?_, ?_⟩
  · intro hlen
    rcases hE : fs.glob (joinPath path (searchMe sample_id lane)) with _ | ⟨x, _ | ⟨y, t⟩⟩
    · simp
    · simp
    · rw [hE] at hlen
      simp at hlen
  · intro hlen
    rcases hE : fs.glob (joinPath path (searchMe sample_id lane)) with _ | ⟨x, _ | ⟨y, _ | ⟨z, t⟩⟩⟩
    · rw [hE] at hlen
      simp at hlen
    · rw [hE] at hlen
      simp at hlen
    · rw [hE] at hlen
      simp at hlen
    · rw [hE] at hlen
      simp only [List.length_cons] at hlen
      simp [hlen]
  · intro a b hE hempty
    rw [hE]
    simp only [pairPfx_none hempty]

/-- Witness for C5: a glob with no matches yields None and no warning. -/
theorem c5_witness :
    get_run_pfx
      { existsAndHasFiles := fun _ => false, glob := fun _ => [],
        nonemptyGz := fun _ => false }
      ("r".data) ("P".data) ("S".data) ("1".data) ("fastp-and-minimap2".data)
      = (Py.ok none, []) :=
  (c5_no_pfx_cases
      { existsAndHasFiles := fun _ => false, glob := fun _ => [],
        nonemptyGz := fun _ => false }
      ("r".data) ("P".data) ("S".data) ("1".data) ("fastp-and-minimap2".data)
      (joinPath ("r".data) ("P".data)) rfl).1 (Or.inl rfl)

/-! ## Claims about agp_transform (C6, C10) -/

/-- Unfolding lemma for strContains on a cons cell. -/
theorem strContains_cons (c : Char) (t pat : Str) :
    strContains (c :: t) pat = (pat.isPrefixOf (c :: t) || strContains t pat) := by
  rw [strContains]

/-- The literal blank is never a prefix of a string headed by '0'. -/
theorem isPrefixOf_blank_zero (xs : Str) :
    blankStr.isPrefixOf ('0' :: xs) = false := by
  rw [show blankStr = 'b' :: ['l', 'a', 'n', 'k'] from rfl]
  simp only [List.isPrefixOf]
  rw [show (('b' == '0') : Bool) = false from rfl, Bool.false_and]

/-- Prepending zeros does not create an occurrence of blank. -/
theorem strContains_repl_zero (k : Nat) (t : Str) :
    strContains (List.replicate k '0' ++ t) blankStr = strContains t blankStr := by
  induction k with
  | zero => rw [List.replicate_zero, List.nil_append]
  | succ k ih =>
    rw [List.replicate_succ, List.cons_append, strContains_cons,
        isPrefixOf_blank_zero, Bool.false_or, ih]

/-- zfill on a digit-headed string is plain left zero-padding. -/
theorem zfill_digit_head (w : Nat) (c : Char) (rest : Str) (hc : c.isDigit = true) :
    zfill w (c :: rest) = List.replicate (w - (c :: rest).length) '0' ++ c :: rest := by
  unfold zfill
  by_cases hw : w ≤ (c :: rest).length
  · rw [if_pos hw, show w - (c :: rest).length = 0 by omega, List.replicate_zero,
        List.nil_append]
  · rw [if_neg hw]
    have hs : ¬(c = '+' ∨ c = '-') := by
      rintro (h | h) <;> subst h <;> exact absurd hc (by decide)
    simp only [hs, if_false]

/-- Applying zero_fill to an already zero-filled digit-headed name is a no-op. -/
theorem zero_fill_zfill_fix (c : Char) (rest : Str) (hd : c.isDigit = true)
    (hb : strContains (lowerStr (c :: rest)) blankStr = false) :
    zero_fill (zfill 9 (c :: rest)) = Py.ok (zfill 9 (c :: rest)) := by
  rw [zfill_digit_head 9 c rest hd]
  have hlower : lowerStr (List.replicate (9 - (c :: rest).length) '0' ++ c :: rest)
      = List.replicate (9 - (c :: rest).length) '0' ++ lowerStr (c :: rest) := by
    simp only [lowerStr, List.map_append, List.map_replicate,
      show lowerChar '0' = '0' by decide]
  have hcont : strContains
      (lowerStr (List.replicate (9 - (c :: rest).length) '0' ++ c :: rest))
      blankStr = false := by
    rw [hlower, strContains_repl_zero, hb]
  have hlenm : 9 ≤ (List.replicate (9 - (c :: rest).length) '0' ++ c :: rest).length := by
    simp only [List.length_append, List.length_replicate, List.length_cons]
    omega
  have hfix : zfill 9 (List.replicate (9 - (c :: rest).length) '0' ++ c :: rest)
      = List.replicate (9 - (c :: rest).length) '0' ++ c :: rest := by
    unfold zfill
    rw [if_pos hlenm]
  cases h9 : 9 - (c :: rest).length with
  | zero =>
    rw [h9, List.replicate_zero, List.nil_append] at hcont hfix
    rw [List.replicate_zero, List.nil_append]
    simp [zero_fill, hcont, hd, hfix]
  | succ k =>
    rw [h9, List.replicate_succ, List.cons_append] at hcont hfix
    rw [List.replicate_succ, List.cons_append]
    have hd0 : ('0').isDigit = true := by decide
    simp [zero_fill, hcont, hd0, hfix]

/-- zero_fill succeeds on any non-empty name, and its result is a fixed point
of zero_fill. -/
theorem zero_fill_idem_chain (c : Char) (rest : Str) :
    ∃ m, zero_fill (c :: rest) = Py.ok m ∧ zero_fill m = Py.ok m := by
  by_cases hb : strContains (lowerStr (c :: rest)) blankStr = true
  · exact ⟨c :: rest, by simp [zero_fill, hb], by simp [zero_fill, hb]⟩
  · have hb' : strContains (lowerStr (c :: rest)) blankStr = false := by
      simpa using hb
    by_cases hd : c.isDigit = true
    · exact ⟨zfill 9 (c :: rest), by simp [zero_fill, hb', hd],
        zero_fill_zfill_fix c rest hd hb'⟩
    · have hd' : c.isDigit = false := by simpa using hd
      exact ⟨c :: rest, by simp [zero_fill, hb', hd'], by simp [zero_fill, hb', hd']⟩

/-- zero_fill on the empty name raises IndexError. -/
theorem zero_fill_nil : zero_fill [] = Py.err PyErr.indexError := by decide

/-- Members of a successful pyMapM output come from members of the input. -/
theorem pyMapM_ok_mem {f : α → Py β} {l : List α} {l' : List β}
    (h : pyMapM f l = .ok l') : ∀ b ∈ l', ∃ a ∈ l, f a = .ok b := by
  induction l generalizing l' with
  | nil =>
    simp only [pyMapM] at h
    injection h with h'
    subst h'
    simp
  | cons a t ih =>
    simp only [pyMapM] at h
    cases hfa : f a with
    | err e => rw [hfa] at h; exact absurd h (by simp)
    | ok b0 =>
      rw [hfa] at h
      cases hres : pyMapM f t with
      | err e => rw [hres] at h; exact absurd h (by simp)
      | ok bs =>
        rw [hres] at h
        injection h with h'
        subst h'
        intro b hb
        rcases List.mem_cons.mp hb with hb | hb
        · exact ⟨a, List.mem_cons_self a t, by rw [hb]; exact hfa⟩
        · obtain ⟨a', ha', hfa'⟩ := ih hres b hb
          exact ⟨a', List.mem_cons_of_mem _ ha', hfa'⟩

/-- pyMapM succeeds when every element succeeds. -/
theorem pyMapM_ok_of_all {f : α → Py β} {l : List α}
    (h : ∀ a ∈ l, ∃ b, f a = .ok b) : ∃ l', pyMapM f l = .ok l' := by
  induction l with
  | nil => exact ⟨[], rfl⟩
  | cons a t ih =>
    obtain ⟨b, hb⟩ := h a (List.mem_cons_self a t)
    obtain ⟨l', hl'⟩ := ih (fun x hx => h x (List.mem_cons_of_mem _ hx))
    exact ⟨b :: l', by simp [pyMapM, hb, hl']⟩

/-- pyMapM is the identity computation when every element maps to itself. -/
theorem pyMapM_ok_id {f : α → Py α} {l : List α} (h : ∀ a ∈ l, f a = .ok a) :
    pyMapM f l = .ok l := by
  induction l with
  | nil => rfl
  | cons a t ih =>
    simp [pyMapM, h a (List.mem_cons_self a t),
      ih (fun x hx => h x (List.mem_cons_of_mem _ hx))]

/-- When each element either raises IndexError or succeeds, and some element
raises, pyMapM raises IndexError. -/
theorem pyMapM_err_uniform {f : α → Py β} {l : List α}
    (hall : ∀ x ∈ l, f x = .err PyErr.indexError ∨ ∃ b, f x = .ok b)
    (hex : ∃ a ∈ l, f a = .err PyErr.indexError) :
    pyMapM f l = .err PyErr.indexError := by
  induction l with
  | nil => simp at hex
  | cons a t ih =>
    obtain ⟨x, hx, hfx⟩ := hex
    rcases hall a (List.mem_cons_self a t) with ha | ⟨b, hb⟩
    · simp [pyMapM, ha]
    · have hex' : ∃ y ∈ t, f y = .err PyErr.indexError := by
        rcases List.mem_cons.mp hx with h | h
        · subst h
          rw [hb] at hfx
          exact absurd hfx (by simp)
        · exact ⟨x, h, hfx⟩
      simp [pyMapM, hb, ih (fun y hy => hall y (List.mem_cons_of_mem _ hy)) hex']

/-- The per-row step of agp_transform for the AGP study. -/
def agpStep (r : AgpRow α) : Py (AgpRow α) :=
  match zero_fill r.sample_name with
  | .err e => .err e
  | .ok n =>
    .ok { r with
          sample_name := n,
          center_name := "UCSDMI".data,
          library_construction_protocol := "Knight Lab KHP".data,
          experiment_design_description :=
            "samples of skin, saliva and feces and other samples from the AGP".data }

/-- agp_transform on the AGP study is pyMapM of the per-row step. -/
theorem agp_transform_agp_eq (frame : List (AgpRow α)) :
    agp_transform frame agpStudyId = pyMapM agpStep frame := by
  unfold agp_transform agpStep
  rw [if_pos rfl]

/-- Claim C6: agp_transform is idempotent on study 10317 for frames whose
sample names are non-empty, and is the identity (no field changed) for any
other study id. -/
theorem c6_agp_idempotent_identity (α : Type) (frame : List (AgpRow α))
    (hne : ∀ r ∈ frame, AgpRow.sample_name r ≠ []) :
    ((agp_transform frame agpStudyId).bind (fun g => agp_transform g agpStudyId)
        = agp_transform frame agpStudyId)
    ∧ (∀ sid, sid ≠ agpStudyId → agp_transform frame sid = Py.ok frame) := by
  constructor
  · cases hres : agp_transform frame agpStudyId with
    | err e => rfl
    | ok frame' =>
      show agp_transform frame' agpStudyId = Py.ok frame'
      rw [agp_transform_agp_eq] at hres ⊢
      refine pyMapM_ok_id (fun r' hr' => ?_)
      obtain ⟨r, hr, hstep⟩ := pyMapM_ok_mem hres r' hr'
      unfold agpStep at hstep
      cases hzf : zero_fill r.sample_name with
      | err e => rw [hzf] at hstep; exact absurd hstep (by simp)
      | ok n =>
        rw [hzf] at hstep
        injection hstep with hstep
        obtain ⟨c, cs, hcs⟩ : ∃ c cs, r.sample_name = c :: cs := by
          cases hname : r.sample_name with
          | nil => exact absurd hname (hne r hr)
          | cons c cs => exact ⟨c, cs, rfl⟩
        obtain ⟨m, hm1, hm2⟩ := zero_fill_idem_chain c cs
        rw [hcs] at hzf
        rw [hm1] at hzf
        injection hzf with hzf
        subst hzf
        subst hstep
        unfold agpStep
        simp only [hm2]
  · intro sid hsid
    unfold agp_transform
    rw [if_neg hsid]

/-- A concrete frame row used by witnesses. -/
def row1 : AgpRow Unit :=
  { sample_name := "123".data, center_name := [],
    library_construction_protocol := [], experiment_design_description := [],
    rest := () }

/-- Instantiation of C6 at a one-row frame. -/
theorem c6_witness :
    ((agp_transform [row1] agpStudyId).bind (fun g => agp_transform g agpStudyId)
        = agp_transform [row1] agpStudyId)
    ∧ agp_transform [row1] ("555".data) = Py.ok [row1] := by
  have h := c6_agp_idempotent_identity Unit [row1] (by decide)
  exact ⟨h.1, h.2 ("555".data) (by decide)⟩

/-- Claim C10: on study 10317, agp_transform is total exactly on frames whose
sample names are all non-empty; a frame containing an empty-string sample
name makes the call raise IndexError (name[0] on the empty name) instead of
returning a frame. -/
theorem c10_agp_empty_name_index_error (α : Type) (frame : List (AgpRow α)) :
    ((∀ r ∈ frame, AgpRow.sample_name r ≠ []) →
      ∃ frame', agp_transform frame agpStudyId = Py.ok frame')
    ∧ ((∃ r ∈ frame, AgpRow.sample_name r = []) →
      agp_transform frame agpStudyId = Py.err PyErr.indexError) := by
  constructor
  · intro h
    rw [agp_transform_agp_eq]
    refine pyMapM_ok_of_all (fun r hr => ?_)
    obtain ⟨c, cs, hcs⟩ : ∃ c cs, r.sample_name = c :: cs := by
      cases hname : r.sample_name with
      | nil => exact absurd hname (h r hr)
      | cons c cs => exact ⟨c, cs, rfl⟩
    obtain ⟨m, hm1, _⟩ := zero_fill_idem_chain c cs
    refine ⟨{ r with sample_name := m, center_name := "UCSDMI".data, library_construction_protocol := "Knight Lab KHP".data, experiment_design_description := "samples of skin, saliva and feces and other samples from the AGP".data }, ?_⟩
    unfold agpStep
    rw [hcs, hm1]
  · intro ⟨r, hr, hname⟩
    rw [agp_transform_agp_eq]
    refine pyMapM_err_uniform (fun x hx => ?_) ⟨r, hr, ?_⟩
    · cases hxs : x.sample_name with
      | nil =>
        refine Or.inl ?_
        unfold agpStep
        rw [hxs, zero_fill_nil]
      | cons c cs =>
        obtain ⟨m, hm1, _⟩ := zero_fill_idem_chain c cs
        refine Or.inr ⟨{ x with sample_name := m, center_name := "UCSDMI".data, library_construction_protocol := "Knight Lab KHP".data, experiment_design_description := "samples of skin, saliva and feces and other samples from the AGP".data }, ?_⟩
        unfold agpStep
        rw [hxs, hm1]
    · unfold agpStep
      rw [hname, zero_fill_nil]

/-- A frame row with an empty sample name, used by the C10 witness. -/
def rowEmpty : AgpRow Unit :=
  { sample_name := [], center_name := [],
    library_construction_protocol := [], experiment_design_description := [],
    rest := () }

/-- Instantiation of C10: a frame with an empty sample name raises IndexError. -/
theorem c10_witness :
    agp_transform [rowEmpty] agpStudyId = Py.err PyErr.indexError :=
  (c10_agp_empty_name_index_error Unit [rowEmpty]).2 ⟨rowEmpty, by simp, rfl⟩

/-! ## Claim C1: missing run-prefix in the mapping-file assembler -/

/-- A filesystem with no files at all: every glob is empty. -/
def fs0 : FS :=
  { existsAndHasFiles := fun _ => false, glob := fun _ => [],
    nonemptyGz := fun _ => false }

/-- A minimal well-formed mapping file: all required columns, one sample in
project Proj_1. -/
def mf1 : MFSheet :=
  { columns := REQUIRED_MF_COLUMNS,
    rows := [{ sample_name := "s1".data, project_name := "Proj_1".data }] }

/-- Claim C1 evidence (code bug): when get_run_prefix_mf finds no prefix, the
call fails with AttributeError from run_prefix.split on None, not with the
"A run-prefix could not be determined." ValueError the source intends to
raise two lines later; the None check is dead code. -/
theorem c1_mapping_file_none_pfx_raises_attribute_error :
    (preparations_for_run_mapping_file fs0 ("run".data) mf1).2
        = Py.err PyErr.attributeErrorNoneSplit
    ∧ PyErr.attributeErrorNoneSplit ≠ PyErr.missingRunPfx := by
  constructor
  · rfl
  · decide

/-! ## Claim C9: observable mutation of the input tables -/

/-- Claim C9: both assemblers mutate their input table observably. Once the
run id parses and the instrument resolves, preparations_for_run on a sheet
without well_description but with description returns the caller's sheet with
description copied into well_description and dropped;
preparations_for_run_mapping_file always returns the caller's mapping file
with all column labels lowercased and lane / Sample_ID columns added (with
lane constant "1" and Sample_ID the scrubbed sample name). -/
theorem c9_frame_effects (fs : FS) (run_path : Str) (sheet : Sheet)
    (pipeline : Str) (mf : MFSheet)
    (hwd : sheet.hasWellDesc = false) (hdc : sheet.hasDesc = true)
    (dt ic im rc : Str)
    (hp : parse_illumina_run_id (lastComponent run_path) = Py.ok (dt, ic))
    (hg : get_model_and_center ic = Py.ok (im, rc))
    (hlane : "lane".data ∉ mf.columns.map lowerStr)
    (hsid : "Sample_ID".data ∉ mf.columns.map lowerStr) :
    (preparations_for_run fs run_path sheet pipeline).1
      = { hasWellDesc := true, hasDesc := false,
          rows := sheet.rows.map (fun p =>
            (p.1, { p.2 with well_description := p.2.description })) }
    ∧ (preparations_for_run_mapping_file fs run_path mf).1
      = { columns := mf.columns.map lowerStr ++ ["lane".data, "Sample_ID".data],
          rows := mf.rows.map (fun r =>
            { r with lane := "1".data, sampleID := bclScrubName r.sample_name }) } := by
  constructor
  · have h1 : (preparations_for_run fs run_path sheet pipeline).1
        = (adjustDescription sheet).1 := by
      simp only [preparations_for_run, hp, hg]
      cases prepProjects fs run_path pipeline (lastComponent run_path) dt im rc
          (adjustDescription sheet).1 <;> rfl
    rw [h1]
    simp [adjustDescription, hwd, hdc]
  · rw [show (preparations_for_run_mapping_file fs run_path mf).1 = mutateMF mf from rfl]
    unfold mutateMF addCol
    rw [if_neg hlane]
    rw [if_neg ?hnot]
    case hnot =>
      intro hmem
      rcases List.mem_append.mp hmem with h | h
      · exact hsid h
      · simp only [List.mem_singleton] at h
        exact absurd h (by decide)
    rw [List.append_assoc]
    rfl

/-- A concrete sample-sheet row for the C9 witness. -/
def srow1 : SRow :=
  { sample_name := "s1".data, sample_plate := "pl".data, sample_well := "A1".data,
    i7_index_id := [], index := [], i5_index_id := [], index2 := [],
    sample_project := "StudyA_1".data, lane := "1".data,
    experiment_design_description := [], library_construction_protocol := [],
    well_description := [], description := "desc".data }

/-- A concrete sheet with description but no well_description column. -/
def sheet1 : Sheet :=
  { hasWellDesc := false, hasDesc := true, rows := [("s1".data, srow1)] }

/-- Instantiation of C9 at concrete inputs. -/
theorem c9_witness :
    (preparations_for_run fs0 ("220303_A00953".data) sheet1 ("fastp-and-minimap2".data)).1
      = { hasWellDesc := true, hasDesc := false,
          rows := sheet1.rows.map (fun p =>
            (p.1, { p.2 with well_description := p.2.description })) }
    ∧ (preparations_for_run_mapping_file fs0 ("220303_A00953".data) mf1).1
      = { columns := mf1.columns.map lowerStr ++ ["lane".data, "Sample_ID".data],
          rows := mf1.rows.map (fun r =>
            { r with lane := "1".data, sampleID := bclScrubName r.sample_name }) } :=
  c9_frame_effects fs0 ("220303_A00953".data) sheet1 ("fastp-and-minimap2".data) mf1
    rfl rfl ("2022-03-03".data) ("A00953".data) ("Illumina NovaSeq 6000".data)
    ("IGM".data) rfl rfl (by decide) (by decide)

/-! ## Claim C3: output tables contain only located samples -/

/-- Every list element lands in the group keyed by its key. -/
theorem groupPairs_mem_of_mem [DecidableEq κ] (key : α → κ) (xs : List α) (x : α)
    (hx : x ∈ xs) :
    ∃ g, (key x, g) ∈ groupPairs key xs ∧ x ∈ g := by
  refine ⟨xs.filter (fun y => key y == key x), ?_, ?_⟩
  · unfold groupPairs
    exact List.mem_map.mpr ⟨key x,
      List.mem_dedup.mpr (List.mem_map_of_mem key hx), rfl⟩
  · exact List.mem_filter.mpr ⟨hx, by simp⟩

/-- Group members belong to the grouped list and carry the group key. -/
theorem groupPairs_sub [DecidableEq κ] {key : α → κ} {xs : List α} {k : κ}
    {g : List α} (h : (k, g) ∈ groupPairs key xs) :
    ∀ x ∈ g, x ∈ xs ∧ key x = k := by
  unfold groupPairs at h
  obtain ⟨k', _, heq⟩ := List.mem_map.mp h
  have hk : k' = k := congrArg Prod.fst heq
  have hg : xs.filter (fun x => key x == k') = g := congrArg Prod.snd heq
  subst hk
  intro x hxg
  rw [← hg] at hxg
  have := List.mem_filter.mp hxg
  exact ⟨this.1, by simpa using this.2⟩

/-- Members of a successful accumMapM output come from input elements, with
their warnings included in the accumulated warnings. -/
theorem accumMapM_ok_mem {g : α → Py (β × List Warn)} {l : List α} {bs : List β}
    {ws : List Warn} (h : accumMapM g l = .ok (bs, ws)) :
    ∀ b ∈ bs, ∃ a ∈ l, ∃ w, g a = .ok (b, w) ∧ ∀ x ∈ w, x ∈ ws := by
  induction l generalizing bs ws with
  | nil =>
    simp only [accumMapM] at h
    injection h with h'
    rw [Prod.mk.injEq] at h'
    obtain ⟨h1, _⟩ := h'
    subst h1
    simp
  | cons a t ih =>
    simp only [accumMapM] at h
    cases hga : g a with
    | err e => rw [hga] at h; exact absurd h (by simp)
    | ok bw =>
      obtain ⟨b0, w0⟩ := bw
      rw [hga] at h
      cases hrec : accumMapM g t with
      | err e => rw [hrec] at h; exact absurd h (by simp)
      | ok bsws =>
        obtain ⟨bs', ws'⟩ := bsws
        rw [hrec] at h
        injection h with h'
        rw [Prod.mk.injEq] at h'
        obtain ⟨h1, h2⟩ := h'
        subst h1
        subst h2
        intro b hb
        rcases List.mem_cons.mp hb with hb | hb
        · exact ⟨a, List.mem_cons_self a t, w0, by rw [hb]; exact hga,
            fun x hx => List.mem_append_left ws' hx⟩
        · obtain ⟨a', ha', w', hga', hsub⟩ := ih hrec b hb
          exact ⟨a', List.mem_cons_of_mem _ ha', w', hga',
            fun x hx => List.mem_append_right w0 (hsub x hx)⟩

/-- Every input element of a successful accumMapM contributes an output
element, with its warnings included. -/
theorem accumMapM_ok_of_mem {g : α → Py (β × List Warn)} {l : List α}
    {bs : List β} {ws : List Warn} (h : accumMapM g l = .ok (bs, ws)) :
    ∀ a ∈ l, ∃ b w, g a = .ok (b, w) ∧ b ∈ bs ∧ ∀ x ∈ w, x ∈ ws := by
  induction l generalizing bs ws with
  | nil => simp
  | cons a t ih =>
    simp only [accumMapM] at h
    cases hga : g a with
    | err e => rw [hga] at h; exact absurd h (by simp)
    | ok bw =>
      obtain ⟨b0, w0⟩ := bw
      rw [hga] at h
      cases hrec : accumMapM g t with
      | err e => rw [hrec] at h; exact absurd h (by simp)
      | ok bsws =>
        obtain ⟨bs', ws'⟩ := bsws
        rw [hrec] at h
        injection h with h'
        rw [Prod.mk.injEq] at h'
        obtain ⟨h1, h2⟩ := h'
        subst h1
        subst h2
        intro x hx
        rcases List.mem_cons.mp hx with hx | hx
        · subst hx
          exact ⟨b0, w0, hga, List.mem_cons_self _ _,
            fun y hy => List.mem_append_left ws' hy⟩
        · obtain ⟨b', w', hg', hb', hsub⟩ := ih hrec x hx
          exact ⟨b', w', hg', List.mem_cons_of_mem _ hb',
            fun y hy => List.mem_append_right w0 (hsub y hy)⟩

/-- Provenance of collected rows: each comes from a lane-sheet sample whose
locator returned exactly the row's run-prefix. -/
theorem collectRows_mem {fs : FS} {run_path pipeline run_id run_date imodel
    rcenter project pname lane : Str} :
    ∀ {lrows : List (Str × SRow)} {data : List PrepRow} {w : List Warn},
    collectRows fs run_path pipeline run_id run_date imodel rcenter project
      pname lane lrows = .ok (data, w) →
    ∀ row ∈ data, ∃ sid s, (sid, s) ∈ lrows ∧
      (get_run_pfx fs run_path project sid lane pipeline).1
        = Py.ok (some (AgpRow.rest row).run_pfx) := by
  intro lrows
  induction lrows with
  | nil =>
    intro data w h
    simp only [collectRows] at h
    injection h with h'
    rw [Prod.mk.injEq] at h'
    obtain ⟨h1, _⟩ := h'
    subst h1
    simp
  | cons p rest ih =>
    intro data w h
    obtain ⟨sid, s⟩ := p
    simp only [collectRows] at h
    cases hpfx : (get_run_pfx fs run_path project sid lane pipeline).1 with
    | err e => rw [hpfx] at h; exact absurd h (by simp)
    | ok o =>
      rw [hpfx] at h
      cases o with
      | none =>
        cases hrec : collectRows fs run_path pipeline run_id run_date imodel
            rcenter project pname lane rest with
        | err e => rw [hrec] at h; exact absurd h (by simp)
        | ok dw =>
          obtain ⟨rows, w'⟩ := dw
          rw [hrec] at h
          injection h with h'
          rw [Prod.mk.injEq] at h'
          obtain ⟨h1, _⟩ := h'
          subst h1
          intro row hrow
          obtain ⟨sid', s', hmem, hp⟩ := ih hrec row hrow
          exact ⟨sid', s', List.mem_cons_of_mem _ hmem, hp⟩
      | some pfx =>
        cases hrec : collectRows fs run_path pipeline run_id run_date imodel
            rcenter project pname lane rest with
        | err e => rw [hrec] at h; exact absurd h (by simp)
        | ok dw =>
          obtain ⟨rows, w'⟩ := dw
          rw [hrec] at h
          injection h with h'
          rw [Prod.mk.injEq] at h'
          obtain ⟨h1, _⟩ := h'
          subst h1
          intro row hrow
          rcases List.mem_cons.mp hrow with hrow | hrow
          · subst hrow
            exact ⟨sid, s, List.mem_cons_self _ _, hpfx⟩
          · obtain ⟨sid', s', hmem, hp⟩ := ih hrec row hrow
            exact ⟨sid', s', List.mem_cons_of_mem _ hmem, hp⟩

/-- When every sample of the lane sheet has no locatable file pair, the
collected data is empty. -/
theorem collectRows_none {fs : FS} {run_path pipeline run_id run_date imodel
    rcenter project pname lane : Str} :
    ∀ {lrows : List (Str × SRow)} {data : List PrepRow} {w : List Warn},
    collectRows fs run_path pipeline run_id run_date imodel rcenter project
      pname lane lrows = .ok (data, w) →
    (∀ p ∈ lrows, (get_run_pfx fs run_path project p.1 lane pipeline).1 = Py.ok none) →
    data = [] := by
  intro lrows
  induction lrows with
  | nil =>
    intro data w h _
    simp only [collectRows] at h
    injection h with h'
    rw [Prod.mk.injEq] at h'
    exact h'.1.symm
  | cons p rest ih =>
    intro data w h hall
    obtain ⟨sid, s⟩ := p
    simp only [collectRows] at h
    have hpfx := hall (sid, s) (List.mem_cons_self _ _)
    rw [hpfx] at h
    cases hrec : collectRows fs run_path pipeline run_id run_date imodel
        rcenter project pname lane rest with
    | err e => rw [hrec] at h; exact absurd h (by simp)
    | ok dw =>
      obtain ⟨rows, w'⟩ := dw
      rw [hrec] at h
      injection h with h'
      rw [Prod.mk.injEq] at h'
      obtain ⟨h1, _⟩ := h'
      subst h1
      exact ih hrec (fun q hq => hall q (List.mem_cons_of_mem _ hq))

/-- The frame returned by agp_transform preserves each row's untouched
columns (the rest component), rowwise from the input frame. -/
theorem agp_transform_rest_mem {α : Type} {frame prep : List (AgpRow α)}
    {sid : Str} (h : agp_transform frame sid = .ok prep) :
    ∀ r' ∈ prep, ∃ r ∈ frame, AgpRow.rest r' = AgpRow.rest r := by
  by_cases hs : sid = agpStudyId
  · subst hs
    rw [agp_transform_agp_eq] at h
    intro r' hr'
    obtain ⟨r, hr, hstep⟩ := pyMapM_ok_mem h r' hr'
    unfold agpStep at hstep
    cases hzf : zero_fill r.sample_name with
    | err e => rw [hzf] at hstep; exact absurd hstep (by simp)
    | ok n =>
      rw [hzf] at hstep
      injection hstep with hstep
      exact ⟨r, hr, by rw [← hstep]⟩
  · unfold agp_transform at h
    rw [if_neg hs] at h
    injection h with h'
    subst h'
    exact fun r' hr' => ⟨r', hr', rfl⟩

/-- agp_transform of an empty frame is the empty frame, for any study id. -/
theorem agp_transform_nil {α : Type} (sid : Str) :
    agp_transform ([] : List (AgpRow α)) sid = .ok [] := by
  unfold agp_transform
  by_cases hs : sid = agpStudyId
  · rw [if_pos hs]; rfl
  · rw [if_neg hs]

/-- Shape of one lane-group entry: the key is (run id, project, lane), every
row comes from a located sample of the group, and an all-dropped group yields
an empty frame plus the no-data warning. -/
theorem prepLane_ok_shape {fs : FS} {run_path pipeline run_id run_date imodel
    rcenter project pname qid lane : Str} {lrows : List (Str × SRow)}
    {entry : PrepEntry} {w : List Warn}
    (h : prepLane fs run_path pipeline run_id run_date imodel rcenter project
      pname qid lane lrows = .ok (entry, w)) :
    entry.1 = (run_id, project, lane)
    ∧ (∀ row ∈ entry.2, ∃ sid s, (sid, s) ∈ lrows ∧
        (get_run_pfx fs run_path project sid lane pipeline).1
          = Py.ok (some (AgpRow.rest row).run_pfx))
    ∧ ((∀ p ∈ lrows,
          (get_run_pfx fs run_path project p.1 lane pipeline).1 = Py.ok none) →
        entry.2 = [] ∧ Warn.noData project lane ∈ w) := by
  unfold prepLane at h
  cases hcol : collectRows fs run_path pipeline run_id run_date imodel rcenter
      project pname lane lrows with
  | err e => rw [hcol] at h; exact absurd h (by simp)
  | ok dw =>
    obtain ⟨data, w1⟩ := dw
    simp only [hcol] at h
    cases hagp : agp_transform data qid with
    | err e => simp only [hagp] at h; exact absurd h (by simp)
    | ok prep =>
      simp only [hagp] at h
      injection h with h'
      rw [Prod.mk.injEq] at h'
      obtain ⟨h1, h2⟩ := h'
      refine ⟨by rw [← h1], ?_, ?_⟩
      · intro row hrow
        have hrow' : row ∈ prep := by rw [← h1] at hrow; exact hrow
        obtain ⟨r, hr, hrest⟩ := agp_transform_rest_mem hagp row hrow'
        obtain ⟨sid, s, hmem, hp⟩ := collectRows_mem hcol r hr
        exact ⟨sid, s, hmem, by rw [hrest]; exact hp⟩
      · intro hall
        have hdata : data = [] := collectRows_none hcol hall
        subst hdata
        rw [agp_transform_nil qid] at hagp
        injection hagp with hagp
        constructor
        · rw [← h1, ← hagp]
        · rw [← h2]
          subst hagp
          refine List.mem_append_left _ (List.mem_append_right _ ?_)
          simp

/-- Claim C3: every table returned by preparations_for_run contains only rows
for samples whose file pair the locator resolved (the row's run-prefix being
exactly the located prefix); samples without a locatable pair are dropped
without failing the call; and every (project, lane) group of the sheet yields
a table under its key, which is empty with a no-data warning when all of the
group's samples were dropped. -/
theorem c3_tables_only_located_samples (fs : FS) (run_path : Str) (sheet : Sheet)
    (pipeline : Str) (tables : List PrepEntry) (warns : List Warn)
    (h : (preparations_for_run fs run_path sheet pipeline).2 = Py.ok (tables, warns)) :
    (∀ rid project lane table, ((rid, project, lane), table) ∈ tables →
      ∀ row ∈ table, ∃ sid s,
        (sid, s) ∈ ((preparations_for_run fs run_path sheet pipeline).1).rows
        ∧ SRow.sample_project s = project ∧ SRow.lane s = lane
        ∧ (get_run_pfx fs run_path project sid lane pipeline).1
            = Py.ok (some (AgpRow.rest row).run_pfx))
    ∧ (∀ pr ∈ ((preparations_for_run fs run_path sheet pipeline).1).rows,
        ∃ table,
          ((lastComponent run_path, SRow.sample_project pr.2, SRow.lane pr.2), table)
              ∈ tables
          ∧ ((∀ q ∈ ((preparations_for_run fs run_path sheet pipeline).1).rows,
                SRow.sample_project q.2 = SRow.sample_project pr.2 →
                SRow.lane q.2 = SRow.lane pr.2 →
                (get_run_pfx fs run_path (SRow.sample_project pr.2) q.1
                    (SRow.lane pr.2) pipeline).1 = Py.ok none) →
              table = [] ∧ Warn.noData (SRow.sample_project pr.2) (SRow.lane pr.2)
                  ∈ warns)) := by
  cases hp : parse_illumina_run_id (lastComponent run_path) with
  | err e =>
    rw [show (preparations_for_run fs run_path sheet pipeline).2 = Py.err e by
      simp only [preparations_for_run, hp]] at h
    exact absurd h (by simp)
  | ok dic =>
  obtain ⟨run_date, icode⟩ := dic
  cases hg : get_model_and_center icode with
  | err e =>
    rw [show (preparations_for_run fs run_path sheet pipeline).2 = Py.err e by
      simp only [preparations_for_run, hp, hg]] at h
    exact absurd h (by simp)
  | ok mc =>
  obtain ⟨imodel, rcenter⟩ := mc
  cases hpp : prepProjects fs run_path pipeline (lastComponent run_path) run_date
      imodel rcenter (adjustDescription sheet).1 with
  | err e =>
    rw [show (preparations_for_run fs run_path sheet pipeline).2 = Py.err e by
      simp only [preparations_for_run, hp, hg, hpp]] at h
    exact absurd h (by simp)
  | ok tw =>
  obtain ⟨tables0, w0⟩ := tw
  have hP2 : (preparations_for_run fs run_path sheet pipeline).2
      = Py.ok (tables0, (adjustDescription sheet).2 ++ w0) := by
    simp only [preparations_for_run, hp, hg, hpp]
  have hP1 : (preparations_for_run fs run_path sheet pipeline).1
      = (adjustDescription sheet).1 := by
    simp only [preparations_for_run, hp, hg, hpp]
  rw [hP2] at h
  injection h with h'
  rw [Prod.mk.injEq] at h'
  obtain ⟨htab, hwar⟩ := h'
  subst htab
  subst hwar
  unfold prepProjects at hpp
  cases hacc : accumMapM
      (fun pg => prepProject fs run_path pipeline (lastComponent run_path) run_date
        imodel rcenter pg.1 pg.2)
      (groupPairs (fun p => (p.2 : SRow).sample_project)
        (adjustDescription sheet).1.rows) with
  | err e => rw [hacc] at hpp; exact absurd hpp (by simp)
  | ok esw =>
  obtain ⟨ess, wAll⟩ := esw
  simp only [hacc] at hpp
  injection hpp with hpp'
  rw [Prod.mk.injEq] at hpp'
  obtain ⟨hflat, hw0⟩ := hpp'
  subst hflat
  subst hw0
  rw [hP1]
  have hwmem : ∀ x ∈ wAll, x ∈ (adjustDescription sheet).2 ++ wAll :=
    fun x hx => List.mem_append_right _ hx
  constructor
  · intro rid project lane table htable row hrow
    obtain ⟨es, hes, hentry⟩ := List.mem_flatten.mp htable
    obtain ⟨pg, hpg, wp, hproj, _⟩ := accumMapM_ok_mem hacc es hes
    unfold prepProject at hproj
    obtain ⟨lg, hlg, wl, hlane, _⟩ :=
      accumMapM_ok_mem hproj ((rid, project, lane), table) hentry
    obtain ⟨hkey, hrows, _⟩ := prepLane_ok_shape hlane
    have hproj_eq : project = pg.1 := congrArg (fun t => t.2.1) hkey
    have hlane_eq : lane = lg.1 := congrArg (fun t => t.2.2) hkey
    obtain ⟨sid, s, hmem, hpfx⟩ := hrows row hrow
    have h1 := groupPairs_sub hlg (sid, s) hmem
    have h2 := groupPairs_sub hpg (sid, s) h1.1
    refine ⟨sid, s, h2.1, ?_, ?_, ?_⟩
    · exact h2.2.trans hproj_eq.symm
    · exact h1.2.trans hlane_eq.symm
    · rw [hproj_eq, hlane_eq]
      exact hpfx
  · intro pr hpr
    obtain ⟨g, hg1, hg2⟩ := groupPairs_mem_of_mem
      (fun p => (p.2 : SRow).sample_project) (adjustDescription sheet).1.rows pr hpr
    obtain ⟨es, wp, hproj, hes, hwp⟩ := accumMapM_ok_of_mem hacc
      ((fun p => (p.2 : SRow).sample_project) pr, g) hg1
    unfold prepProject at hproj
    obtain ⟨g2, hg21, hg22⟩ := groupPairs_mem_of_mem
      (fun p => (p.2 : SRow).lane) g pr hg2
    obtain ⟨entry, wl, hlaneok, hentry, hwl⟩ := accumMapM_ok_of_mem hproj
      ((fun p => (p.2 : SRow).lane) pr, g2) hg21
    obtain ⟨hkey, _, hdrop⟩ := prepLane_ok_shape hlaneok
    refine ⟨entry.2, ?_, ?_⟩
    · have hent : entry
          = ((lastComponent run_path, SRow.sample_project pr.2, SRow.lane pr.2),
             entry.2) := by
        rw [← hkey]
      rw [← hent]
      exact List.mem_flatten.mpr ⟨es, hes, hentry⟩
    · intro hall
      have hdropped := hdrop ?_
      · exact ⟨hdropped.1, hwmem _ (hwp _ (hwl _ hdropped.2))⟩
      · intro q hq
        have hq1 := groupPairs_sub hg21 q hq
        have hq2 := groupPairs_sub hg1 q hq1.1
        exact hall q hq2.1 hq2.2 hq1.2

/-- A concrete sheet (well_description present) for the C3 witness. -/
def sheetC3 : Sheet :=
  { hasWellDesc := true, hasDesc := false, rows := [("s1".data, srow1)] }

/-- The concrete output dictionary of the C3 witness run. -/
def tablesC3 : List PrepEntry :=
  [(("220303_A00953".data, "StudyA_1".data, "1".data), [])]

/-- The concrete warnings of the C3 witness run. -/
def warnsC3 : List Warn := [Warn.noData ("StudyA_1".data) ("1".data)]

/-- Instantiation of C3: on a run directory with no files, the single group's
key still appears, its table is empty, and the no-data warning is emitted. -/
theorem c3_witness :
    ∃ table, (("220303_A00953".data, "StudyA_1".data, "1".data), table) ∈ tablesC3
      ∧ table = ([] : List PrepRow)
      ∧ Warn.noData ("StudyA_1".data) ("1".data) ∈ warnsC3 := by
  have h := c3_tables_only_located_samples fs0 ("220303_A00953".data) sheetC3
      ("fastp-and-minimap2".data) tablesC3 warnsC3 rfl
  obtain ⟨table, hmem, himp⟩ := h.2 ("s1".data, srow1) (by decide)
  have hdropped := himp (by decide)
  exact ⟨table, hmem, hdropped.1, hdropped.2⟩
